import Mathlib

/-!
Verification of the filmshell binary decoders.

This file gives a shallow embedding, in Lean, of the core decoding functions
of the filmshell repository, translated from the TypeScript sources:

* `src/viewer/film-parser.ts` — frame marker scanning (`findMarkers`,
  `parseFrames`, `frameAtOffset`);
* `src/cli/motion-extractor.ts` — base-0x09 position extraction
  (`extractBase09Position`) with wraparound delta accumulation;
* the fire-event scanner (`scanFireEvents`) and the octahedral aim decoder
  (`decodeOctahedralAim`);
* the Bond Compact Binary v2 unpacker (`BondUnpacker`).

Byte buffers (`Uint8Array` / `Buffer`) are modelled as `List Nat`; reads use
`List.getD _ 0`.  JavaScript bitwise operators are modelled with `Nat`
bitwise operations for byte-sized inputs.  Floating point arithmetic (only in
the octahedral decoder) is modelled in exact real arithmetic.
-/

namespace Filmshell

/-! ## Film parser (src/viewer/film-parser.ts) -/

/-- One hex digit character, as produced by `Number.toString(16)`. -/
def hexChar (n : Nat) : Char :=
  "0123456789abcdef".toList.getD n '0'

/-- `toHex2` from film-parser.ts: `n.toString(16).padStart(2, '0')`.
For byte-valued `n` (the only values the source feeds it) this is exactly
two hex digits. -/
def toHex2 (n : Nat) : String :=
  String.mk [hexChar (n / 16 % 16), hexChar (n % 16)]

/-- Marker test at one position: bytes `A0 7B 42`. -/
def isMarkerAt (data : List Nat) (i : Nat) : Bool :=
  data.getD i 0 == 0xa0 && data.getD (i + 1) 0 == 0x7b && data.getD (i + 2) 0 == 0x42

/-- `findMarkers` from film-parser.ts: all `A0 7B 42` marker positions.
The source iterates `i` from `0` while `i < data.length - 2`. -/
def findMarkers (data : List Nat) : List Nat :=
  (List.range (data.length - 2)).filter (isMarkerAt data)

/-- `getChunkIndex` from film-parser.ts: the source loops `i` downward from
`chunkOffsets.length - 1` and returns the first `i` with
`offset >= chunkOffsets[i]`, else `0`. -/
def getChunkIndex (offset : Nat) (chunkOffsets : List Nat) : Nat :=
  (((List.range chunkOffsets.length).reverse).find?
    (fun i => chunkOffsets.getD i 0 ≤ offset)).getD 0

/-- `ParsedFrame` from film-parser.ts.  `coord1`/`coord2` are the optional
decoded coordinate pair (`undefined` modelled as `none`). -/
structure ParsedFrame where
  index : Nat
  offset : Nat
  chunkIndex : Nat
  tick : Nat
  byte5 : Nat
  byte6 : Nat
  byte7 : Nat
  byte8 : Nat
  playerIndex : Nat
  baseType : Nat
  formatByte : Nat
  dataBytes : List Nat
  frameTypeHex : String
  subtypeHex : String
  isPositionFrame : Bool
  hasPlayer : Bool
  coord1 : Option Nat
  coord2 : Option Nat
  deriving DecidableEq, Repr, Inhabited

/-- Build the `ParsedFrame` pushed by `parseFrames` for marker position `pos`
with running index `idx` (the source uses `frames.length` as the index). -/
def mkParsedFrame (data : List Nat) (chunkOffsets : List Nat) (idx pos : Nat) :
    ParsedFrame :=
  let tick := (data.getD (pos + 3) 0 <<< 8) ||| data.getD (pos + 4) 0
  let byte5 := data.getD (pos + 5) 0
  let byte6 := data.getD (pos + 6) 0
  let byte7 := data.getD (pos + 7) 0
  let byte8 := data.getD (pos + 8) 0
  let formatByte := data.getD (pos + 9) 0
  let playerIndex := (byte6 >>> 5) &&& 0x07
  let baseType := byte6 &&& 0x1f
  let dataBytes := (List.range 10).map
    (fun d => if pos + 10 + d < data.length then data.getD (pos + 10 + d) 0 else 0)
  let d0HiNib := dataBytes.getD 0 0 >>> 4
  let isPositionFrame := byte5 == 0x40 && baseType == 0x09 && d0HiNib == 4
  let hasPlayer := byte5 == 0x40 && (baseType == 0x09 || baseType == 0x08)
  { index := idx
    offset := pos
    chunkIndex := getChunkIndex pos chunkOffsets
    tick := tick
    byte5 := byte5, byte6 := byte6, byte7 := byte7, byte8 := byte8
    playerIndex := playerIndex
    baseType := baseType
    formatByte := formatByte
    dataBytes := dataBytes
    frameTypeHex := toHex2 byte5 ++ toHex2 byte6 ++ toHex2 byte7 ++ toHex2 byte8
    subtypeHex := toHex2 byte7 ++ toHex2 byte8
    isPositionFrame := isPositionFrame
    hasPlayer := hasPlayer
    coord1 := if isPositionFrame then some (dataBytes.getD 0 0 * 256 + dataBytes.getD 1 0) else none
    coord2 := if isPositionFrame then
        some (((dataBytes.getD 2 0 &&& 0x0f) <<< 8) ||| dataBytes.getD 3 0)
      else none }

/-- `parseFrames` from film-parser.ts: keep every marker position `pos` with
`pos + 20 ≤ data.length` and build one frame per kept marker; the source's
`frames.length` index is the frame's position in the kept list. -/
def parseFrames (data : List Nat) (chunkOffsets : List Nat) : List ParsedFrame :=
  ((findMarkers data).filter (fun pos => pos + 20 ≤ data.length)).enum.map
    (fun p => mkParsedFrame data chunkOffsets p.1 p.2)

instance decPairwise {α : Type} (R : α → α → Prop) [DecidableRel R] :
    (l : List α) → Decidable (l.Pairwise R)
  | [] => isTrue List.Pairwise.nil
  | a :: l =>
    haveI := decPairwise R l
    decidable_of_iff ((∀ b ∈ l, R a b) ∧ l.Pairwise R) List.pairwise_cons.symm

/-- The frame list is strictly ascending by offset. -/
def strictlyAscending (frames : List ParsedFrame) : Prop :=
  frames.Pairwise (fun a b => a.offset < b.offset)

/-- No two frames' 20-byte spans `[offset, offset+19]` overlap. -/
def spansDisjoint (frames : List ParsedFrame) : Prop :=
  frames.Pairwise (fun a b => a.offset + 19 < b.offset ∨ b.offset + 19 < a.offset)

instance (frames : List ParsedFrame) : Decidable (strictlyAscending frames) :=
  decPairwise _ frames

instance (frames : List ParsedFrame) : Decidable (spansDisjoint frames) :=
  decPairwise _ frames

/-! ## Motion extractor (src/cli/motion-extractor.ts) -/

/-- `MotionPoint` from types.ts, as produced by the extractors. -/
structure MotionPoint where
  frame : Nat
  cumCoord1 : Int
  cumCoord2 : Int
  raw1 : Nat
  raw2 : Nat
  deriving DecidableEq, Repr, Inhabited

/-- `getPlayerIndex` from motion-extractor.ts: bits 7–5 of the second frame
type byte. -/
def getPlayerIndex (frameTypeByte1 : Nat) : Nat :=
  (frameTypeByte1 >>> 5) &&& 0x07

/-- `getBaseType` from motion-extractor.ts: low 5 bits of the second frame
type byte. -/
def getBaseType (frameTypeByte1 : Nat) : Nat :=
  frameTypeByte1 &&& 0x1f

/-- `findMarkers` from motion-extractor.ts.  Unlike the film-parser version
this one iterates `i` while `i < buffer.length - 3`. -/
def findMarkersM (buffer : List Nat) : List Nat :=
  (List.range (buffer.length - 3)).filter (isMarkerAt buffer)

/-- The 16-bit wraparound correction applied to the coord1 delta in
`extractBase09Position` (two sequential `if`s, lines 207–208). -/
def wrap16 (delta : Int) : Int :=
  let d1 := if delta > 32768 then delta - 65536 else delta
  if d1 < -32768 then d1 + 65536 else d1

/-- The 12-bit wraparound correction applied to the coord2 delta in
`extractBase09Position` (range 0–4095). -/
def wrap12 (delta : Int) : Int :=
  let d1 := if delta > 2048 then delta - 4096 else delta
  if d1 < -2048 then d1 + 4096 else d1

/-- Discontinuity suppression in `extractBase09Position`: a corrected delta
whose absolute value exceeds the threshold (4000) is replaced by zero. -/
def suppressDiscontinuity (delta : Int) : Int :=
  if delta.natAbs > 4000 then 0 else delta

/-- One accumulation step of `extractBase09Position`: from the previous raw
coordinate pair and the running cumulative totals, fold in one new raw
sample, returning the new cumulative totals. -/
def base09Step (prev : Nat × Nat) (cum : Int × Int) (raw : Nat × Nat) : Int × Int :=
  let delta1 := suppressDiscontinuity (wrap16 ((raw.1 : Int) - (prev.1 : Int)))
  let delta2 := suppressDiscontinuity (wrap12 ((raw.2 : Int) - (prev.2 : Int)))
  (cum.1 + delta1, cum.2 + delta2)

/-- The raw `(c1, c2)` sample decoded by `extractBase09Position` from the
frame at marker position `pos`, if the frame passes all its filters
(bounds, `byte5 = 0x40`, player index, base type `0x09`, data byte 0 high
nibble 4). -/
def base09Sample (chunk : List Nat) (playerIndex pos : Nat) : Option (Nat × Nat) :=
  if chunk.length ≤ pos + 13 then none
  else
    let byte5 := chunk.getD (pos + 5) 0
    let byte6 := chunk.getD (pos + 6) 0
    if byte5 ≠ 0x40 then none
    else if getPlayerIndex byte6 ≠ playerIndex then none
    else if getBaseType byte6 ≠ 0x09 then none
    else
      let b0 := chunk.getD (pos + 10) 0
      if b0 >>> 4 ≠ 4 then none
      else
        let b1 := chunk.getD (pos + 11) 0
        let b2 := chunk.getD (pos + 12) 0
        let b3 := chunk.getD (pos + 13) 0
        some (b0 * 256 + b1, ((b2 &&& 0x0f) <<< 8) ||| b3)

/-- The sequence of raw samples `extractBase09Position` visits, in order:
for each chunk, each marker position that passes every filter. -/
def base09Samples (chunks : List (List Nat)) (playerIndex : Nat) : List (Nat × Nat) :=
  chunks.flatMap (fun chunk => (findMarkersM chunk).filterMap (base09Sample chunk playerIndex))

/-- The accumulation loop of `extractBase09Position` after the first sample:
`prev` holds the previous raw pair, `cum` the running cumulative totals and
`k` the next frame counter value. -/
def base09Accum (prev : Nat × Nat) (cum : Int × Int) (k : Nat) :
    List (Nat × Nat) → List MotionPoint
  | [] => []
  | s :: rest =>
    let cum2 := base09Step prev cum s
    ⟨k, cum2.1, cum2.2, s.1, s.2⟩ :: base09Accum s cum2 (k + 1) rest

/-- `extractBase09Position` from motion-extractor.ts: the first matching
frame starts the path with cumulative totals 0, later frames accumulate
wraparound-corrected, discontinuity-suppressed deltas. -/
def extractBase09Position (chunks : List (List Nat)) (playerIndex : Nat) :
    List MotionPoint :=
  match base09Samples chunks playerIndex with
  | [] => []
  | s :: rest => ⟨0, 0, 0, s.1, s.2⟩ :: base09Accum s (0, 0) 1 rest

/-- The binary-search loop of `frameAtOffset`.  The source keeps an
inclusive upper bound `hi` (initialised to `frames.length - 1`, possibly
`-1`); to stay in `Nat` we carry `hi1 = hi + 1`, so the loop condition
`lo ≤ hi` becomes `lo < hi1`, `hi = mid - 1` becomes `hi1 = mid`, and
`mid = (lo + hi) >>> 1` becomes `(lo + hi1 - 1) / 2`. -/
def frameSearchGo (frames : List ParsedFrame) (offset : Nat) (lo hi1 : Nat) : Option Nat :=
  if h : lo < hi1 then
    if offset < (frames.getD ((lo + hi1 - 1) / 2) default).offset then
      frameSearchGo frames offset lo ((lo + hi1 - 1) / 2)
    else if (frames.getD ((lo + hi1 - 1) / 2) default).offset + 19 < offset then
      frameSearchGo frames offset ((lo + hi1 - 1) / 2 + 1) hi1
    else some ((lo + hi1 - 1) / 2)
  else none
termination_by hi1 - lo
decreasing_by
  · omega
  · omega

/-- `frameAtOffset` from film-parser.ts: binary search for the frame whose
20-byte span contains `offset`, returning its index or `none`. -/
def frameAtOffset (offset : Nat) (frames : List ParsedFrame) : Option Nat :=
  frameSearchGo frames offset 0 frames.length

/-- `offset` lies in the frame's 20-byte span `[offset, offset + 19]`. -/
def containsOffset (f : ParsedFrame) (offset : Nat) : Prop :=
  f.offset ≤ offset ∧ offset ≤ f.offset + 19

/-- The frame list is ascending by offset with non-overlapping 20-byte
spans (each frame ends strictly before the next one starts). -/
def sortedNonOverlapping (frames : List ParsedFrame) : Prop :=
  frames.Pairwise (fun a b => a.offset + 19 < b.offset)

instance (f : ParsedFrame) (offset : Nat) : Decidable (containsOffset f offset) := by
  unfold containsOffset; infer_instance

instance (frames : List ParsedFrame) : Decidable (sortedNonOverlapping frames) :=
  decPairwise _ frames

/-! ## Octahedral aim decoder (octahedral-decode.ts)

The source computes with IEEE doubles; we model the arithmetic exactly over
the reals.  All values reached by the claims below are exactly representable
and all operations on them are exact, so the real model agrees with the
float execution there. -/

/-- The normalization tail of `decodeOctahedralAim`: divide by the vector
length, falling back to the fixed default direction `(0, 0, 1)` when the
length is numerically degenerate (`< 1e-10`). -/
noncomputable def normalizeOrDefault (x y z : ℝ) : ℝ × ℝ × ℝ :=
  let len := Real.sqrt (x * x + y * y + z * z)
  if len < 1 / 10 ^ 10 then (0, 0, 1)
  else (x / len, y / len, z / len)

/-- `decodeOctahedralAim` from octahedral-decode.ts. -/
noncomputable def decodeOctahedralAim (octantByte aimUint16 : Nat) : ℝ × ℝ × ℝ :=
  let octant := octantByte &&& 0x07
  let u := (aimUint16 >>> 8) &&& 0xff
  let v := aimUint16 &&& 0xff
  let fu : ℝ := (u : ℝ) / 255
  let fv : ℝ := (v : ℝ) / 255
  let a := fu
  let b := fv
  let c := max 0 (1 - a - b)
  let sx : ℝ := if octant &&& 1 ≠ 0 then -1 else 1
  let sy : ℝ := if octant &&& 2 ≠ 0 then -1 else 1
  let sz : ℝ := if octant &&& 4 ≠ 0 then -1 else 1
  normalizeOrDefault (sx * a) (sy * b) (sz * c)

/-! ## Fire event scanner (fire-scanner.ts) -/

/-- `readShifted` from fire-scanner.ts: the nibble-shifted byte at `pos`,
0 when `pos + 1` is out of range. -/
def readShifted (data : List Nat) (pos : Nat) : Nat :=
  if data.length ≤ pos + 1 then 0
  else ((data.getD pos 0 <<< 4) ||| (data.getD (pos + 1) 0 >>> 4)) &&& 0xff

/-- `readShiftedHex` from fire-scanner.ts, modelled as the byte list it
renders (fixed-width hex rendering is injective, so byte-list equality and
hex-string equality coincide). -/
def readShiftedBytes (data : List Nat) (pos count : Nat) : List Nat :=
  (List.range count).map (fun i => readShifted data (pos + i))

/-- `readShiftedU16` from fire-scanner.ts: big-endian nibble-shifted u16. -/
def readShiftedU16 (data : List Nat) (pos : Nat) : Nat :=
  (readShifted data pos <<< 8) ||| readShifted data (pos + 1)

/-- The fixed 4-byte weapon namespace suffix `42 c9 67 9f`. -/
def weaponSuffix : List Nat := [0x42, 0xc9, 0x67, 0x9f]

/-- The static weapon-id → name table from fire-scanner.ts. -/
def weaponIdTable : List (List Nat × String) :=
  [([0x48, 0xc1, 0x9d, 0x2d, 0x42, 0xc9, 0x67, 0x9f], "MA40 AR"),
   ([0xf4, 0x08, 0x19, 0x0f, 0x42, 0xc9, 0x67, 0x9f], "Mk51 Sidekick"),
   ([0x2b, 0x18, 0x24, 0xd5, 0x42, 0xc9, 0x67, 0x9f], "BR75"),
   ([0x2f, 0xb2, 0x1c, 0x87, 0x42, 0xc9, 0x67, 0x9f], "M392 Bandit"),
   ([0xfd, 0x98, 0x55, 0x4c, 0x42, 0xc9, 0x67, 0x9f], "VK78 Commando"),
   ([0x0a, 0x19, 0x92, 0xbc, 0x42, 0xc9, 0x67, 0x9f], "S7 Sniper"),
   ([0xb6, 0x19, 0xd8, 0x4a, 0x42, 0xc9, 0x67, 0x9f], "CQS48 Bulldog"),
   ([0x71, 0xab, 0x0a, 0x2c, 0x42, 0xc9, 0x67, 0x9f], "M41 SPNKr"),
   ([0xb5, 0x33, 0x95, 0x7e, 0x42, 0xc9, 0x67, 0x9f], "Needler"),
   ([0x7e, 0x53, 0xb3, 0xc6, 0x42, 0xc9, 0x67, 0x9f], "Pulse Carbine"),
   ([0x04, 0xe7, 0xf0, 0x0b, 0x42, 0xc9, 0x67, 0x9f], "Plasma Pistol"),
   ([0xc2, 0x4e, 0x54, 0x9e, 0x42, 0xc9, 0x67, 0x9f], "Sentinel Beam"),
   ([0x3d, 0x34, 0x48, 0x85, 0x42, 0xc9, 0x67, 0x9f], "Heatwave"),
   ([0xf5, 0xef, 0x3b, 0xdb, 0x42, 0xc9, 0x67, 0x9f], "Stalker Rifle"),
   ([0xfc, 0xc6, 0xaa, 0x76, 0x42, 0xc9, 0x67, 0x9f], "Shock Rifle"),
   ([0x7d, 0xeb, 0x13, 0x3f, 0x42, 0xc9, 0x67, 0x9f], "Mangler"),
   ([0xcb, 0x30, 0xec, 0x5e, 0x42, 0xc9, 0x67, 0x9f], "Disruptor"),
   ([0x2b, 0x1d, 0x61, 0xe4, 0x42, 0xc9, 0x67, 0x9f], "Ravager"),
   ([0x7a, 0x11, 0xae, 0xef, 0x42, 0xc9, 0x67, 0x9f], "Skewer"),
   ([0xc2, 0xa6, 0xd5, 0xe0, 0x42, 0xc9, 0x67, 0x9f], "Cindershot"),
   ([0x1f, 0x6a, 0xe6, 0x55, 0x42, 0xc9, 0x67, 0x9f], "Hydra"),
   ([0x8a, 0xfc, 0x08, 0x55, 0x42, 0xc9, 0x67, 0x9f], "Gravity Hammer"),
   ([0x14, 0x88, 0xd0, 0xbb, 0x42, 0xc9, 0x67, 0x9f], "Energy Sword"),
   ([0xb6, 0xdb, 0xea, 0xd8, 0x42, 0xc9, 0x67, 0x9f], "Frag Grenade"),
   ([0xc1, 0xe1, 0xba, 0xb0, 0x42, 0xc9, 0x67, 0x9f], "Plasma Grenade")]

/-- Weapon name resolution: `WEAPON_IDS[weaponId] || 'Unknown'`. -/
def lookupWeaponName (weaponId : List Nat) : String :=
  ((weaponIdTable.find? (fun e => e.1 == weaponId)).map Prod.snd).getD "Unknown"

/-- `FireEvent` from fire-scanner.ts, before the decoded aim direction is
attached. -/
structure FireEventCore where
  offset : Nat
  chunkIndex : Nat
  counter : Nat
  slot : Nat
  weaponId : List Nat
  weaponName : String
  octantByte : Nat
  aimUint16 : Nat
  deriving DecidableEq, Repr

/-- The body of the scan loop of `scanFireEvents` for one start offset `i`:
either the candidate passes the lead-pattern match and every validation
check and produces an event, or it is skipped (`none`). -/
def fireCand (data chunkOffsets : List Nat) (i : Nat) : Option FireEventCore :=
  let b0 := ((data.getD i 0 <<< 4) ||| (data.getD (i + 1) 0 >>> 4)) &&& 0xff
  if b0 ≠ 0x0d then none
  else
    let b1 := ((data.getD (i + 1) 0 <<< 4) ||| (data.getD (i + 2) 0 >>> 4)) &&& 0xff
    if b1 ≠ 0x26 then none
    else
      let b3 := ((data.getD (i + 3) 0 <<< 4) ||| (data.getD (i + 4) 0 >>> 4)) &&& 0xff
      if b3 &&& 0xfc ≠ 0x40 then none
      else if data.length ≤ i + 17 then none
      else
        let counter := readShifted data (i + 4)
        let slot := readShifted data (i + 5)
        if slot ≠ 0x01 ∧ slot ≠ 0x03 then none
        else if counter % 4 ≠ 0 then none
        else
          let weaponId := readShiftedBytes data (i + 6) 8
          if ¬ (weaponSuffix.isSuffixOf weaponId) then none
          else
            some { offset := i
                   chunkIndex := getChunkIndex i chunkOffsets
                   counter := counter
                   slot := slot
                   weaponId := weaponId
                   weaponName := lookupWeaponName weaponId
                   octantByte := readShifted data (i + 14)
                   aimUint16 := readShiftedU16 data (i + 15) }

/-- The event list built by `scanFireEvents`: the scan loop runs `i` from 0
while `i < data.length - 20`. -/
def scanFireEventsCore (data chunkOffsets : List Nat) : List FireEventCore :=
  (List.range (data.length - 20)).filterMap (fireCand data chunkOffsets)

/-- One `weaponCounts.set(name, (weaponCounts.get(name) || 0) + 1)` update
on the insertion-ordered count map. -/
def bumpCount : List (String × Nat) → String → List (String × Nat)
  | [], name => [(name, 1)]
  | (k, v) :: rest, name =>
    if k = name then (k, v + 1) :: rest else (k, v) :: bumpCount rest name

/-- The per-weapon-name counts accumulated by `scanFireEvents`. -/
def weaponCountsOf (events : List FireEventCore) : List (String × Nat) :=
  events.foldl (fun m e => bumpCount m e.weaponName) []

/-- Total of all per-weapon counts. -/
def countsTotal (m : List (String × Nat)) : Nat :=
  (m.map Prod.snd).sum

/-- `FireEvent` from fire-scanner.ts, with the decoded aim direction. -/
structure FireEvent where
  offset : Nat
  chunkIndex : Nat
  counter : Nat
  slot : Nat
  weaponId : List Nat
  weaponName : String
  octantByte : Nat
  aimUint16 : Nat
  aimDirection : ℝ × ℝ × ℝ

/-- Attach the decoded octahedral aim direction to an event. -/
noncomputable def attachAim (e : FireEventCore) : FireEvent :=
  { offset := e.offset, chunkIndex := e.chunkIndex, counter := e.counter
    slot := e.slot, weaponId := e.weaponId, weaponName := e.weaponName
    octantByte := e.octantByte, aimUint16 := e.aimUint16
    aimDirection := decodeOctahedralAim e.octantByte e.aimUint16 }

/-- `FireScanResult` from fire-scanner.ts. -/
structure FireScanResult where
  events : List FireEvent
  weaponCounts : List (String × Nat)

/-- `scanFireEvents` from fire-scanner.ts. -/
noncomputable def scanFireEvents (data chunkOffsets : List Nat) : FireScanResult :=
  { events := (scanFireEventsCore data chunkOffsets).map attachAim
    weaponCounts := weaponCountsOf (scanFireEventsCore data chunkOffsets) }

/-- The lead-pattern match of the fire scan at offset `i`: shifted byte 0 is
`0x0d`, shifted byte 1 is `0x26`, and the top 6 bits of shifted byte 3 are
`0x40`. -/
def fireLeadMatch (data : List Nat) (i : Nat) : Prop :=
  ((data.getD i 0 <<< 4) ||| (data.getD (i + 1) 0 >>> 4)) &&& 0xff = 0x0d ∧
  ((data.getD (i + 1) 0 <<< 4) ||| (data.getD (i + 2) 0 >>> 4)) &&& 0xff = 0x26 ∧
  (((data.getD (i + 3) 0 <<< 4) ||| (data.getD (i + 4) 0 >>> 4)) &&& 0xff) &&& 0xfc = 0x40

/-- The three downstream validation checks of the fire scan at offset `i`:
counter a multiple of 4, slot exactly 1 or 3, weapon id ending in the fixed
namespace suffix. -/
def fireChecksOk (data : List Nat) (i : Nat) : Prop :=
  readShifted data (i + 4) % 4 = 0 ∧
  (readShifted data (i + 5) = 0x01 ∨ readShifted data (i + 5) = 0x03) ∧
  weaponSuffix.isSuffixOf (readShiftedBytes data (i + 6) 8) = true

instance (data : List Nat) (i : Nat) : Decidable (fireLeadMatch data i) := by
  unfold fireLeadMatch; infer_instance

instance (data : List Nat) (i : Nat) : Decidable (fireChecksOk data i) := by
  unfold fireChecksOk; infer_instance

/-! ## Bond Compact Binary v2 (bond-parser.ts)

The `Reader` is modelled as a fixed buffer (`List Nat`) plus an explicit
cursor/blob-table state.  `BigInt` LEB128 arithmetic is exact and is
modelled with `Nat`.  Float/double payloads and string payloads are carried
as their raw bytes.  The value decoder is fuel-indexed (the fuel only bounds
nesting/iteration depth; the claims below do not depend on its adequacy). -/

/-- A decoded Bond value.  Type tags: 0 stop, 1 stop_base, 2 bool, 3 uint8,
4/5/6 uint16/32/64, 7 float, 8 double, 9 string, 10 struct, 11 list,
12 set, 13 map, 14 int8, 15/16/17 int16/32/64, 18 wstring. -/
inductive BondValue where
  | vbool : Bool → BondValue
  | vnat : Nat → BondValue
  | vint : Int → BondValue
  | vfloat : List Nat → BondValue
  | vdouble : List Nat → BondValue
  | vstr : List Nat → BondValue
  | vwstr : List Nat → BondValue
  | vstruct : List (Nat × Nat × BondValue) → Bool → BondValue
  | vlist : Bool → Nat → Nat → Option (List Nat) → Option Nat →
      Option (List BondValue) → BondValue
  | vmap : Nat → Nat → Nat → List (BondValue × BondValue) → BondValue
  | vunknown : Nat → BondValue
  deriving Repr

/-- The text payload of a byte list/set value (`data`), if any. -/
def listData : BondValue → Option (List Nat)
  | .vlist _ _ _ d _ _ => d
  | _ => none

/-- The blob side-table reference of a byte list/set value, if any. -/
def listBlobRef : BondValue → Option Nat
  | .vlist _ _ _ _ r _ => r
  | _ => none

/-- The inline item sequence of a list/set value, if any. -/
def listItems : BondValue → Option (List BondValue)
  | .vlist _ _ _ _ _ i => i
  | _ => none

/-- One entry of the blob side table (`this.blobs`); the base64 rendering is
carried as the raw bytes it encodes. -/
structure BondBlob where
  index : Nat
  length : Nat
  data : List Nat
  deriving DecidableEq, Repr

/-- Decoder state: the reader cursor and the blob side table. -/
structure BondState where
  pos : Nat
  blobs : List BondBlob
  deriving DecidableEq, Repr

/-- `Reader.leb128u`: unsigned LEB128.  One fuel unit per byte consumed;
the loop stops at end of buffer, so `buf.length - pos + 1` fuel is always
enough. -/
def leb128uGo (buf : List Nat) : Nat → Nat → Nat → Nat → Nat × Nat
  | 0, pos, result, _ => (result, pos)
  | fuel + 1, pos, result, shift =>
    if buf.length ≤ pos then (result, pos)
    else
      let byte := buf.getD pos 0
      let result2 := result ||| ((byte &&& 0x7f) <<< shift)
      if byte &&& 0x80 = 0 then (result2, pos + 1)
      else leb128uGo buf fuel (pos + 1) result2 (shift + 7)

/-- `leb128u` at a cursor: returns the decoded value and the new cursor. -/
def leb128u (buf : List Nat) (pos : Nat) : Nat × Nat :=
  leb128uGo buf (buf.length + 1 - pos) pos 0 0

/-- Zig-zag decoding `(u >> 1) ^ -(u & 1)` of `Reader.leb128`. -/
def zigzag (u : Nat) : Int :=
  if u % 2 = 0 then ((u / 2 : Nat) : Int) else -((u / 2 : Nat) : Int) - 1

/-- `Reader.i8`: reinterpret a byte as a signed 8-bit value. -/
def i8val (b : Nat) : Int :=
  if b < 128 then (b : Int) else (b : Int) - 256

/-- `Reader.u16`: little-endian 16-bit read. -/
def u16le (buf : List Nat) (pos : Nat) : Nat :=
  buf.getD pos 0 + 256 * buf.getD (pos + 1) 0

/-- `Reader.i32be`: big-endian signed 32-bit read. -/
def i32beAt (buf : List Nat) (pos : Nat) : Int :=
  let v := (buf.getD pos 0 <<< 24) + (buf.getD (pos + 1) 0 <<< 16) +
    (buf.getD (pos + 2) 0 <<< 8) + buf.getD (pos + 3) 0
  if v < 2 ^ 31 then (v : Int) else (v : Int) - 2 ^ 32

/-- `Reader.bytes`: `subarray(pos, pos + n)` (clamped to the buffer). -/
def bytesAt (buf : List Nat) (pos n : Nat) : List Nat :=
  (buf.drop pos).take n

/-- The byte predicate of `readList`'s text check: printable ASCII,
LF/CR/TAB whitespace, or NUL. -/
def isTextByte (b : Nat) : Bool :=
  (decide (32 ≤ b) && decide (b < 127)) || b == 10 || b == 13 || b == 9 || b == 0

/-- Struct field insertion `fields[key] = {type, value}`: JavaScript object
semantics — an existing field id keeps its place and is overwritten, a new
one is appended. -/
def setField : List (Nat × Nat × BondValue) → Nat → Nat → BondValue →
    List (Nat × Nat × BondValue)
  | [], fid, ty, v => [(fid, ty, v)]
  | f :: rest, fid, ty, v =>
    if f.1 = fid then (fid, ty, v) :: rest else f :: setField rest fid ty v

/-- The header of `readList`: element type (low 5 bits of the first byte),
count (high 3 bits, or LEB128 when those are 0, else the inline value − 1),
and the position of the payload. -/
def listHeader (buf : List Nat) (pos : Nat) : Nat × Nat × Nat :=
  let tc := buf.getD pos 0
  let elemType := tc &&& 0x1f
  let cnt0 := tc >>> 5
  let cp := if cnt0 = 0 then leb128u buf (pos + 1) else (cnt0 - 1, pos + 1)
  (elemType, cp.1, cp.2)

mutual

/-- The struct-decoding loop of `BondUnpacker.readStruct`: one fuel unit
per loop iteration (each iteration consumes at least the tag byte). -/
def readStructGo (buf : List Nat) :
    Nat → Nat → Nat → BondState → List (Nat × Nat × BondValue) → Bool →
    List (Nat × Nat × BondValue) × Bool × BondState
  | 0, _, _, st, fields, hasBase => (fields, hasBase, st)
  | fuel + 1, startPos, maxLen, st, fields, hasBase =>
    if st.pos < buf.length ∧ st.pos - startPos < maxLen then
      let b := buf.getD st.pos 0
      let st1 : BondState := { st with pos := st.pos + 1 }
      let ty := b &&& 0x1f
      if ty = 0 then (fields, hasBase, st1)
      else if ty = 1 then readStructGo buf fuel startPos maxLen st1 fields true
      else
        let fid0 := b >>> 5
        let fidst :=
          if fid0 = 6 then (buf.getD st1.pos 0, { st1 with pos := st1.pos + 1 })
          else if fid0 = 7 then (u16le buf st1.pos, { st1 with pos := st1.pos + 2 })
          else (fid0, st1)
        let vst := readValue buf fuel ty fidst.2
        readStructGo buf fuel startPos maxLen vst.2 (setField fields fidst.1 ty vst.1) hasBase
    else (fields, hasBase, st)
termination_by structural fuel _ _ _ _ _ => fuel

/-- `BondUnpacker.readValue`: decode one value of the given type tag. -/
def readValue (buf : List Nat) : Nat → Nat → BondState → BondValue × BondState
  | 0, _, st => (BondValue.vunknown 999, st)
  | fuel + 1, ty, st =>
    if ty = 2 then (BondValue.vbool (buf.getD st.pos 0 != 0), { st with pos := st.pos + 1 })
    else if ty = 3 then (BondValue.vnat (buf.getD st.pos 0), { st with pos := st.pos + 1 })
    else if ty = 14 then (BondValue.vint (i8val (buf.getD st.pos 0)), { st with pos := st.pos + 1 })
    else if ty = 4 ∨ ty = 5 ∨ ty = 6 then
      let r := leb128u buf st.pos
      (BondValue.vnat r.1, { st with pos := r.2 })
    else if ty = 15 ∨ ty = 16 ∨ ty = 17 then
      let r := leb128u buf st.pos
      (BondValue.vint (zigzag r.1), { st with pos := r.2 })
    else if ty = 7 then (BondValue.vfloat (bytesAt buf st.pos 4), { st with pos := st.pos + 4 })
    else if ty = 8 then (BondValue.vdouble (bytesAt buf st.pos 8), { st with pos := st.pos + 8 })
    else if ty = 9 then
      let r := leb128u buf st.pos
      if r.1 = 0 then (BondValue.vstr [], { st with pos := r.2 })
      else (BondValue.vstr (bytesAt buf r.2 r.1), { st with pos := r.2 + r.1 })
    else if ty = 18 then
      let r := leb128u buf st.pos
      if r.1 = 0 then (BondValue.vwstr [], { st with pos := r.2 })
      else (BondValue.vwstr (bytesAt buf r.2 (r.1 * 2)), { st with pos := r.2 + r.1 * 2 })
    else if ty = 10 then
      let r := leb128u buf st.pos
      let sres := readStructGo buf fuel r.2 r.1 { st with pos := r.2 } [] false
      (BondValue.vstruct sres.1 sres.2.1, { sres.2.2 with pos := r.2 + r.1 })
    else if ty = 11 then readList buf fuel false st
    else if ty = 12 then readList buf fuel true st
    else if ty = 13 then readMap buf fuel st
    else (BondValue.vunknown ty, st)
termination_by structural fuel _ _ => fuel

/-- `BondUnpacker.readList` (also used for sets): byte-element payloads are
exposed as text (NULs stripped) when non-empty, shorter than 1000 bytes and
entirely printable/whitespace/NUL, otherwise stored once in the blob side
table; other element types decode an inline item sequence. -/
def readList (buf : List Nat) : Nat → Bool → BondState → BondValue × BondState
  | 0, _, st => (BondValue.vunknown 999, st)
  | fuel + 1, isSet, st =>
    let h := listHeader buf st.pos
    let elemType := h.1
    let count := h.2.1
    let pos2 := h.2.2
    if elemType = 3 ∨ elemType = 14 then
      let bytes := bytesAt buf pos2 count
      let isText := decide (0 < count) && decide (count < 1000) && bytes.all isTextByte
      if isText then
        (BondValue.vlist isSet elemType count (some (bytes.filter (fun b => b != 0))) none none,
         { st with pos := pos2 + count })
      else
        (BondValue.vlist isSet elemType count none (some st.blobs.length) none,
         { pos := pos2 + count,
           blobs := st.blobs ++ [⟨st.blobs.length, count, bytes⟩] })
    else
      let r := readListItems buf fuel elemType count { st with pos := pos2 }
      (BondValue.vlist isSet elemType count none none (some r.1), r.2)
termination_by structural fuel _ _ => fuel

/-- The item loop of `readList` for non-byte element types. -/
def readListItems (buf : List Nat) : Nat → Nat → Nat → BondState →
    List BondValue × BondState
  | 0, _, _, st => ([], st)
  | fuel + 1, elemType, count, st =>
    match count with
    | 0 => ([], st)
    | c + 1 =>
      let r := readValue buf fuel elemType st
      let rest := readListItems buf fuel elemType c r.2
      (r.1 :: rest.1, rest.2)
termination_by structural fuel _ _ _ => fuel

/-- `BondUnpacker.readMap`: key type byte, value type byte, LEB128 count,
then that many key/value pairs. -/
def readMap (buf : List Nat) : Nat → BondState → BondValue × BondState
  | 0, st => (BondValue.vunknown 999, st)
  | fuel + 1, st =>
    let keyType := buf.getD st.pos 0 &&& 0x1f
    let valType := buf.getD (st.pos + 1) 0 &&& 0x1f
    let r := leb128u buf (st.pos + 2)
    let e := readMapEntries buf fuel keyType valType r.1 { st with pos := r.2 }
    (BondValue.vmap keyType valType r.1 e.1, e.2)
termination_by structural fuel _ => fuel

/-- The entry loop of `readMap`. -/
def readMapEntries (buf : List Nat) : Nat → Nat → Nat → Nat → BondState →
    List (BondValue × BondValue) × BondState
  | 0, _, _, _, st => ([], st)
  | fuel + 1, keyType, valType, count, st =>
    match count with
    | 0 => ([], st)
    | c + 1 =>
      let k := readValue buf fuel keyType st
      let v := readValue buf fuel valType k.2
      let rest := readMapEntries buf fuel keyType valType c v.2
      ((k.1, v.1) :: rest.1, rest.2)
termination_by structural fuel _ _ _ _ => fuel

end

/-- `BondUnpacker.readStruct`, starting at the current cursor. -/
def readStruct (buf : List Nat) (fuel maxLen : Nat) (st : BondState) :
    List (Nat × Nat × BondValue) × Bool × BondState :=
  readStructGo buf fuel st.pos maxLen st [] false

/-- The outer length prefix and content start of `unpack`. -/
def bondHeader (buf : List Nat) : Nat × Nat :=
  leb128u buf 0

/-- The full result of the main `readStruct` call of `unpack`. -/
def bondStructResult (buf : List Nat) :
    List (Nat × Nat × BondValue) × Bool × BondState :=
  readStruct buf (buf.length + 1) (bondHeader buf).1
    { pos := (bondHeader buf).2, blobs := [] }

/-- The decoder state after the main struct of `unpack` is read. -/
def bondStructEnd (buf : List Nat) : BondState :=
  (bondStructResult buf).2.2

/-- The padding probe of `unpack`: are the first `min(remaining, 100)`
bytes after the main struct all zero? -/
def allZerosUpTo100 (buf : List Nat) (pos : Nat) : Bool :=
  (bytesAt buf pos 100).all (fun b => b == 0)

/-- A decoded Bond document: file size, outer length, root struct fields,
has-base-class flag, blob side table, and the optional nested document
recovered from a compressed trailer (compression kind — 0 raw deflate,
1 zlib —, compressed size, decompressed size, inner document). -/
inductive BondDocument where
  | mk : Nat → Nat → List (Nat × Nat × BondValue) → Bool → List BondBlob →
      Option (Nat × Nat × Nat × BondDocument) → BondDocument

/-- File size recorded in the document. -/
def BondDocument.fileSize : BondDocument → Nat
  | .mk n _ _ _ _ _ => n

/-- Declared outer length recorded in the document. -/
def BondDocument.outerLength : BondDocument → Nat
  | .mk _ n _ _ _ _ => n

/-- Root struct (fields and has-base-class flag) of the document. -/
def BondDocument.content : BondDocument → List (Nat × Nat × BondValue) × Bool
  | .mk _ _ f hb _ _ => (f, hb)

/-- Blob side table of the document. -/
def BondDocument.blobs : BondDocument → List BondBlob
  | .mk _ _ _ _ b _ => b

/-- The nested compressed document, if one was attached. -/
def BondDocument.compressedData : BondDocument → Option (Nat × Nat × Nat × BondDocument)
  | .mk _ _ _ _ _ c => c

mutual

/-- `BondUnpacker.unpack`, parameterized by the two decompression oracles
(`inflateRawSync` and `inflateSync` from node:zlib, returning `none` where
the library call throws); fuel bounds the nested-document recursion depth
only. -/
def unpackGo (ir inf : List Nat → Option (List Nat)) : Nat → List Nat → BondDocument
  | 0, buf => .mk buf.length 0 [] false [] none
  | fuel + 1, buf =>
    let nested :=
      if (bondStructEnd buf).pos - (bondHeader buf).2 < (bondHeader buf).1 ∧
          (bondStructEnd buf).pos < buf.length then
        if allZerosUpTo100 buf (bondStructEnd buf).pos then none
        else readCompressedBlob ir inf fuel buf (bondStructEnd buf).pos
      else none
    .mk buf.length (bondHeader buf).1 (bondStructResult buf).1
      (bondStructResult buf).2.1 (bondStructEnd buf).blobs nested
termination_by fuel _ => (fuel, 0)

/-- `BondUnpacker.readCompressedBlob`: 4-byte big-endian size, then the
compressed payload; raw deflate is attempted first, zlib-wrapped second;
`none` on any failure. -/
def readCompressedBlob (ir inf : List Nat → Option (List Nat)) :
    Nat → List Nat → Nat → Option (Nat × Nat × Nat × BondDocument)
  | fuel, buf, pos =>
    if buf.length < pos + 4 then none
    else
      let size := i32beAt buf pos
      if size ≤ 0 ∨ ((buf.length - (pos + 4) : Nat) : Int) < size then none
      else
        let compressedData := bytesAt buf (pos + 4) size.toNat
        match ir compressedData with
        | some dec => some (0, size.toNat, dec.length, unpackGo ir inf fuel dec)
        | none =>
          match inf compressedData with
          | some dec => some (1, size.toNat, dec.length, unpackGo ir inf fuel dec)
          | none => none
termination_by fuel _ _ => (fuel, 1)

end

/-- `parseBond` / `BondUnpacker.unpack` entry point. -/
def unpack (ir inf : List Nat → Option (List Nat)) (buf : List Nat) : BondDocument :=
  unpackGo ir inf (buf.length + 1) buf

theorem parseFrames_map_offset (data chunkOffsets : List Nat) :
    (parseFrames data chunkOffsets).map ParsedFrame.offset =
      (findMarkers data).filter (fun pos => pos + 20 ≤ data.length) := by
  simp only [parseFrames, List.map_map]
  have h : (ParsedFrame.offset ∘ fun p : Nat × Nat =>
      mkParsedFrame data chunkOffsets p.1 p.2) = Prod.snd := by
    funext p
    rfl
  rw [h, List.enum_map_snd]

theorem findMarkers_pairwise (data : List Nat) :
    (findMarkers data).Pairwise (· < ·) :=
  (List.pairwise_lt_range _).filter _

/-- C2 counterexample: a buffer holding the marker at offsets 0 and 3 (the
second marker begins inside the first frame's 20-byte span) yields two frames
whose spans `[0,19]` and `[3,22]` overlap, refuting the claimed non-overlap
invariant. -/
theorem c2_spansOverlap_counterexample :
    ¬ spansDisjoint (parseFrames ([0xa0, 0x7b, 0x42, 0xa0, 0x7b, 0x42] ++
      List.replicate 17 0) [0]) := by
  decide

/-- C2 (amended): for every input byte buffer and chunk-offset list, the
frame list returned by `parseFrames` is strictly ascending by offset; the
20-byte spans of two frames may overlap when their markers lie fewer than
20 bytes apart. -/
theorem c2_parseFrames_strictlyAscending (data chunkOffsets : List Nat) :
    strictlyAscending (parseFrames data chunkOffsets) := by
  have h1 : ((parseFrames data chunkOffsets).map ParsedFrame.offset).Pairwise (· < ·) := by
    rw [parseFrames_map_offset]
    exact (findMarkers_pairwise data).filter _
  exact List.pairwise_map.mp h1

/-- C7: a buffer whose only complete marker occurrence is at offset 100
yields, when its total length is at least 120, exactly one frame, at offset
100; and when its total length is 115, no frames at all (the `pos + 20 ≤
length` guard rejects the marker). -/
theorem c7_parseFrames_singleMarker (data chunkOffsets : List Nat)
    (h : findMarkers data = [100]) :
    (120 ≤ data.length →
      (parseFrames data chunkOffsets).map ParsedFrame.offset = [100]) ∧
    (data.length = 115 → parseFrames data chunkOffsets = []) := by
  constructor
  · intro hlen
    rw [parseFrames_map_offset, h]
    have hk : (100 : Nat) + 20 ≤ data.length := by omega
    simp [List.filter, hk]
  · intro hlen
    unfold parseFrames
    rw [h]
    have hk : ¬ ((100 : Nat) + 20 ≤ data.length) := by omega
    simp [List.filter, hk]

theorem c7_parseFrames_singleMarker_witness :
    (parseFrames (List.replicate 100 0 ++ [0xa0, 0x7b, 0x42] ++ List.replicate 17 0) []).map
        ParsedFrame.offset = [100] ∧
    parseFrames (List.replicate 100 0 ++ [0xa0, 0x7b, 0x42] ++ List.replicate 12 0) [] = [] :=
  ⟨(c7_parseFrames_singleMarker _ [] (by decide)).1 (by decide),
   (c7_parseFrames_singleMarker _ [] (by decide)).2 (by decide)⟩

/-- C10: every frame emitted by `parseFrames` has its whole 20-byte record
inside the buffer, and its 10 data bytes are exactly the buffer contents at
`offset+10 … offset+19` — the zero-padding fallback in the data-byte loop is
never taken for an emitted frame. -/
theorem c10_emittedFrame_reads_in_bounds (data chunkOffsets : List Nat)
    (f : ParsedFrame) (hf : f ∈ parseFrames data chunkOffsets) :
    f.offset + 20 ≤ data.length ∧
    f.dataBytes = (List.range 10).map (fun d => data.getD (f.offset + 10 + d) 0) := by
  simp only [parseFrames, List.mem_map] at hf
  obtain ⟨p, hp, rfl⟩ := hf
  have hmem : p.2 ∈ (findMarkers data).filter (fun pos => pos + 20 ≤ data.length) :=
    List.snd_mem_of_mem_enum hp
  have hle : p.2 + 20 ≤ data.length := by simpa using List.of_mem_filter hmem
  refine ⟨hle, ?_⟩
  simp only [mkParsedFrame]
  apply List.map_congr_left
  intro d hd
  have hd10 : d < 10 := List.mem_range.mp hd
  have hin : p.2 + 10 + d < data.length := by omega
  simp [hin]

theorem c10_emittedFrame_reads_in_bounds_witness :
    ((parseFrames ([0xa0, 0x7b, 0x42] ++ List.replicate 17 0) []).getD 0 default).offset + 20 ≤
        (([0xa0, 0x7b, 0x42] ++ List.replicate 17 0 : List Nat)).length ∧
    ((parseFrames ([0xa0, 0x7b, 0x42] ++ List.replicate 17 0) []).getD 0 default).dataBytes =
      (List.range 10).map (fun d => ([0xa0, 0x7b, 0x42] ++ List.replicate 17 0 : List Nat).getD
        (((parseFrames ([0xa0, 0x7b, 0x42] ++ List.replicate 17 0) []).getD 0 default).offset + 10 + d) 0) :=
  c10_emittedFrame_reads_in_bounds _ [] _ (by decide)

theorem fireCand_eq_some (data chunkOffsets : List Nat) (i : Nat) (e : FireEventCore)
    (h : fireCand data chunkOffsets i = some e) :
    e.offset = i ∧ e.counter = readShifted data (i + 4) ∧
    e.slot = readShifted data (i + 5) ∧
    e.weaponId = readShiftedBytes data (i + 6) 8 ∧
    fireChecksOk data i := by
  simp only [fireCand] at h
  split_ifs at h with h1 h2 h3 h4 h5 h6 h7
  injection h with h
  subst h
  refine ⟨rfl, rfl, rfl, rfl, by omega, by omega, by simpa using h7⟩

theorem bumpCount_total (m : List (String × Nat)) (name : String) :
    countsTotal (bumpCount m name) = countsTotal m + 1 := by
  induction m with
  | nil => rfl
  | cons kv rest ih =>
    obtain ⟨k, v⟩ := kv
    by_cases hk : k = name <;> simp [bumpCount, hk, countsTotal] at * <;> omega

theorem weaponCountsOf_total (events : List FireEventCore) :
    countsTotal (weaponCountsOf events) = events.length := by
  suffices h : ∀ m, countsTotal (events.foldl (fun m e => bumpCount m e.weaponName) m) =
      countsTotal m + events.length by
    simpa [weaponCountsOf, countsTotal] using h []
  induction events with
  | nil => intro m; simp
  | cons e rest ih =>
    intro m
    simp only [List.foldl_cons, List.length_cons, ih, bumpCount_total]
    omega

/-- C3: the fire scanner emits an event for a lead-pattern match only when
the counter is a multiple of 4, the slot byte is 1 or 3 and the weapon id
ends in the fixed namespace suffix; a candidate failing any check yields no
event at that offset, and the weapon counts total exactly the number of
emitted events, so skipped candidates contribute no count. -/
theorem c3_fireEvent_validation (data chunkOffsets : List Nat) (i : Nat)
    (_hlead : fireLeadMatch data i) (hfail : ¬ fireChecksOk data i) :
    (∀ e ∈ (scanFireEvents data chunkOffsets).events, e.offset ≠ i) ∧
    (∀ e ∈ (scanFireEvents data chunkOffsets).events,
      e.counter % 4 = 0 ∧ (e.slot = 0x01 ∨ e.slot = 0x03) ∧
      weaponSuffix.isSuffixOf e.weaponId = true) ∧
    countsTotal (scanFireEvents data chunkOffsets).weaponCounts =
      (scanFireEvents data chunkOffsets).events.length := by
  refine ⟨?_, ?_, ?_⟩
  · intro e he heq
    obtain ⟨c, hc, rfl⟩ := List.mem_map.mp he
    obtain ⟨j, _, hcand⟩ := List.mem_filterMap.mp hc
    obtain ⟨hoff, _, _, _, hchecks⟩ := fireCand_eq_some _ _ _ _ hcand
    have hji : j = i := by
      have : (attachAim c).offset = c.offset := rfl
      omega
    exact hfail (hji ▸ hchecks)
  · intro e he
    obtain ⟨c, hc, rfl⟩ := List.mem_map.mp he
    obtain ⟨j, _, hcand⟩ := List.mem_filterMap.mp hc
    obtain ⟨_, hctr, hslot, hwep, h1, h2, h3⟩ := fireCand_eq_some _ _ _ _ hcand
    have e1 : (attachAim c).counter = c.counter := rfl
    have e2 : (attachAim c).slot = c.slot := rfl
    have e3 : (attachAim c).weaponId = c.weaponId := rfl
    rw [e1, e2, e3, hctr, hslot, hwep]
    exact ⟨h1, h2, h3⟩
  · show countsTotal (weaponCountsOf (scanFireEventsCore data chunkOffsets)) =
      ((scanFireEventsCore data chunkOffsets).map attachAim).length
    rw [weaponCountsOf_total, List.length_map]

theorem c3_fireEvent_validation_witness :
    (∀ e ∈ (scanFireEvents [0x00, 0xd2, 0x60, 0x04, 0x00, 0x40, 0x10,
        0, 0, 0, 0, 0, 0, 0, 0, 0, 0, 0, 0, 0, 0] [0]).events, e.offset ≠ 0) ∧
    (∀ e ∈ (scanFireEvents [0x00, 0xd2, 0x60, 0x04, 0x00, 0x40, 0x10,
        0, 0, 0, 0, 0, 0, 0, 0, 0, 0, 0, 0, 0, 0] [0]).events,
      e.counter % 4 = 0 ∧ (e.slot = 0x01 ∨ e.slot = 0x03) ∧
      weaponSuffix.isSuffixOf e.weaponId = true) ∧
    countsTotal (scanFireEvents [0x00, 0xd2, 0x60, 0x04, 0x00, 0x40, 0x10,
        0, 0, 0, 0, 0, 0, 0, 0, 0, 0, 0, 0, 0, 0] [0]).weaponCounts =
      (scanFireEvents [0x00, 0xd2, 0x60, 0x04, 0x00, 0x40, 0x10,
        0, 0, 0, 0, 0, 0, 0, 0, 0, 0, 0, 0, 0, 0] [0]).events.length :=
  c3_fireEvent_validation _ [0] 0 (by decide) (by decide)

/-- C9: octant 0 with face code `0xFF00` (u = 255, v = 0) decodes exactly to
the unit vector (1, 0, 0); and whenever the pre-normalization vector is
numerically degenerate (length below 1e-10), the normalization returns the
fixed default direction (0, 0, 1) instead of dividing by zero. -/
theorem c9_decodeOctahedralAim_spec :
    decodeOctahedralAim 0 0xFF00 = (1, 0, 0) ∧
    ∀ x y z : ℝ, Real.sqrt (x * x + y * y + z * z) < 1 / 10 ^ 10 →
      normalizeOrDefault x y z = (0, 0, 1) := by
  constructor
  · have h1 : decodeOctahedralAim 0 0xFF00 = normalizeOrDefault 1 0 0 := by
      unfold decodeOctahedralAim
      have hu : (0xFF00 : Nat) >>> 8 &&& 255 = 255 := by decide
      have hv : (0xFF00 : Nat) &&& 255 = 0 := by decide
      rw [hu, hv]
      norm_num
    rw [h1]
    unfold normalizeOrDefault
    norm_num [Real.sqrt_one]
  · intro x y z h
    unfold normalizeOrDefault
    rw [if_pos h]

theorem c9_decodeOctahedralAim_spec_witness :
    decodeOctahedralAim 0 0xFF00 = (1, 0, 0) ∧
    normalizeOrDefault 0 0 0 = (0, 0, 1) :=
  ⟨c9_decodeOctahedralAim_spec.1,
   c9_decodeOctahedralAim_spec.2 0 0 0 (by norm_num [Real.sqrt_zero])⟩

/-- C1: for consecutive raw coord1 values 65530 then 5 on the 16-bit
channel, the wraparound correction yields a corrected delta of exactly +11
(the uncorrected difference is −65525), and `base09Step` — the accumulation
step of `extractBase09Position` — adds exactly that +11 to the running
cumulative total (the coord2 channel, raw 10 then 10, contributes 0). -/
theorem c1_wrap16_delta_plus_eleven (t1 t2 : Int) :
    (5 : Int) - 65530 = -65525 ∧
    wrap16 ((5 : Int) - 65530) = 11 ∧
    base09Step (65530, 10) (t1, t2) (5, 10) = (t1 + 11, t2) := by
  refine ⟨by norm_num, by norm_num [wrap16], ?_⟩
  show (t1 + suppressDiscontinuity (wrap16 ((5 : Int) - 65530)),
        t2 + suppressDiscontinuity (wrap12 ((10 : Int) - 10))) = (t1 + 11, t2)
  norm_num [wrap16, wrap12, suppressDiscontinuity]

theorem base09Accum_length (S : List (Nat × Nat)) :
    ∀ (prev : Nat × Nat) (cum : Int × Int) (k : Nat),
      (base09Accum prev cum k S).length = S.length := by
  induction S with
  | nil => intro prev cum k; rfl
  | cons s rest ih => intro prev cum k; simp [base09Accum, ih]

theorem base09Accum_restart (S : List (Nat × Nat)) :
    ∀ (prev : Nat × Nat) (cum : Int × Int) (k j : Nat), j < S.length →
      base09Accum
        (((base09Accum prev cum k S).getD j default).raw1,
         ((base09Accum prev cum k S).getD j default).raw2)
        (((base09Accum prev cum k S).getD j default).cumCoord1,
         ((base09Accum prev cum k S).getD j default).cumCoord2)
        (k + j + 1) (S.drop (j + 1)) =
      (base09Accum prev cum k S).drop (j + 1) := by
  induction S with
  | nil => intro prev cum k j h; simp at h
  | cons s rest ih =>
    intro prev cum k j h
    match j with
    | 0 => rfl
    | Nat.succ j =>
      have hlen : j < rest.length := by
        simp only [List.length_cons] at h
        omega
      simp only [base09Accum, List.getD_cons_succ, List.drop_succ_cons]
      have e : k + (j + 1) + 1 = k + 1 + j + 1 := by omega
      rw [e]
      exact ih s (base09Step prev cum s) (k + 1) j hlen

/-- C6: position accumulation in `extractBase09Position` is a
prefix-restartable fold — replaying the accumulation from any sample `k`,
seeded with sample `k`'s raw coordinates as the previous raws and sample
`k`'s running cumulative totals, reproduces exactly the tail of the motion
point list; and the first sample of every extracted path has cumulative
totals (0, 0). -/
theorem c6_base09_prefix_restartable (chunks : List (List Nat)) (playerIndex : Nat) :
    (∀ k, k < (extractBase09Position chunks playerIndex).length →
      base09Accum
        (((extractBase09Position chunks playerIndex).getD k default).raw1,
         ((extractBase09Position chunks playerIndex).getD k default).raw2)
        (((extractBase09Position chunks playerIndex).getD k default).cumCoord1,
         ((extractBase09Position chunks playerIndex).getD k default).cumCoord2)
        (k + 1) ((base09Samples chunks playerIndex).drop (k + 1)) =
      (extractBase09Position chunks playerIndex).drop (k + 1)) ∧
    (∀ p, (extractBase09Position chunks playerIndex).head? = some p →
      p.cumCoord1 = 0 ∧ p.cumCoord2 = 0) := by
  constructor
  · intro k hk
    rcases hS : base09Samples chunks playerIndex with _ | ⟨s, rest⟩
    · simp [extractBase09Position, hS] at hk
    · simp only [extractBase09Position, hS] at hk ⊢
      match k with
      | 0 => rfl
      | Nat.succ k =>
        have hlen : k < rest.length := by
          simp only [List.length_cons, base09Accum_length] at hk
          omega
        simp only [List.getD_cons_succ, List.drop_succ_cons]
        have e : k + 1 + 1 = 1 + k + 1 := by omega
        rw [e]
        exact base09Accum_restart rest s (0, 0) 1 k hlen
  · intro p hp
    rcases hS : base09Samples chunks playerIndex with _ | ⟨s, rest⟩ <;>
      simp only [extractBase09Position, hS, List.head?] at hp
    · cases hp
    · cases hp
      exact ⟨rfl, rfl⟩

theorem c6_base09_prefix_restartable_witness :
    (base09Accum
      (((extractBase09Position [[0xa0, 0x7b, 0x42, 0, 1, 0x40, 0x09, 0, 0, 0, 0x40, 5, 0, 7,
          0xa0, 0x7b, 0x42, 0, 2, 0x40, 0x09, 0, 0, 0, 0x40, 9, 0, 0x0a]] 0).getD 1 default).raw1,
       ((extractBase09Position [[0xa0, 0x7b, 0x42, 0, 1, 0x40, 0x09, 0, 0, 0, 0x40, 5, 0, 7,
          0xa0, 0x7b, 0x42, 0, 2, 0x40, 0x09, 0, 0, 0, 0x40, 9, 0, 0x0a]] 0).getD 1 default).raw2)
      (((extractBase09Position [[0xa0, 0x7b, 0x42, 0, 1, 0x40, 0x09, 0, 0, 0, 0x40, 5, 0, 7,
          0xa0, 0x7b, 0x42, 0, 2, 0x40, 0x09, 0, 0, 0, 0x40, 9, 0, 0x0a]] 0).getD 1 default).cumCoord1,
       ((extractBase09Position [[0xa0, 0x7b, 0x42, 0, 1, 0x40, 0x09, 0, 0, 0, 0x40, 5, 0, 7,
          0xa0, 0x7b, 0x42, 0, 2, 0x40, 0x09, 0, 0, 0, 0x40, 9, 0, 0x0a]] 0).getD 1 default).cumCoord2)
      2 ((base09Samples [[0xa0, 0x7b, 0x42, 0, 1, 0x40, 0x09, 0, 0, 0, 0x40, 5, 0, 7,
          0xa0, 0x7b, 0x42, 0, 2, 0x40, 0x09, 0, 0, 0, 0x40, 9, 0, 0x0a]] 0).drop 2) =
      (extractBase09Position [[0xa0, 0x7b, 0x42, 0, 1, 0x40, 0x09, 0, 0, 0, 0x40, 5, 0, 7,
          0xa0, 0x7b, 0x42, 0, 2, 0x40, 0x09, 0, 0, 0, 0x40, 9, 0, 0x0a]] 0).drop 2) ∧
    (⟨0, 0, 0, 16389, 7⟩ : MotionPoint).cumCoord1 = 0 ∧
    (⟨0, 0, 0, 16389, 7⟩ : MotionPoint).cumCoord2 = 0 :=
  ⟨(c6_base09_prefix_restartable _ 0).1 1 (by decide),
   (c6_base09_prefix_restartable [[0xa0, 0x7b, 0x42, 0, 1, 0x40, 0x09, 0, 0, 0, 0x40, 5, 0, 7,
      0xa0, 0x7b, 0x42, 0, 2, 0x40, 0x09, 0, 0, 0, 0x40, 9, 0, 0x0a]] 0).2
     ⟨0, 0, 0, 16389, 7⟩ (by decide)⟩

theorem sortedNonOverlapping_mono (frames : List ParsedFrame)
    (hs : sortedNonOverlapping frames) (i j : Nat) (hij : i < j) (hj : j < frames.length) :
    (frames.getD i default).offset + 19 < (frames.getD j default).offset := by
  have hi : i < frames.length := lt_trans hij hj
  have h := List.pairwise_iff_getElem.mp hs i j hi hj hij
  rwa [List.getD_eq_getElem frames default hi, List.getD_eq_getElem frames default hj]

theorem frameSearchGo_correct (frames : List ParsedFrame) (offset : Nat)
    (hs : sortedNonOverlapping frames) :
    ∀ (n lo hi1 : Nat), hi1 - lo ≤ n → hi1 ≤ frames.length →
    (∀ j, j < frames.length → containsOffset (frames.getD j default) offset →
      lo ≤ j ∧ j < hi1) →
    ∀ i, (frameSearchGo frames offset lo hi1 = some i ↔
      i < frames.length ∧ containsOffset (frames.getD i default) offset) := by
  intro n
  induction n with
  | zero =>
    intro lo hi1 hn hle hinv i
    have hnlt : ¬ lo < hi1 := by omega
    rw [frameSearchGo, dif_neg hnlt]
    constructor
    · intro h; cases h
    · rintro ⟨hi, hcont⟩
      have := hinv i hi hcont
      omega
  | succ n ih =>
    intro lo hi1 hn hle hinv i
    by_cases hlt : lo < hi1
    · rw [frameSearchGo, dif_pos hlt]
      set mid := (lo + hi1 - 1) / 2 with hmid
      have hmidlo : lo ≤ mid := by omega
      have hmidhi : mid < hi1 := by omega
      have hmidlen : mid < frames.length := lt_of_lt_of_le hmidhi hle
      by_cases h1 : offset < (frames.getD mid default).offset
      · rw [if_pos h1]
        apply ih lo mid (by omega) (by omega)
        intro j hj hcont
        obtain ⟨hj1, hj2⟩ := hinv j hj hcont
        refine ⟨hj1, ?_⟩
        by_contra hge
        push_neg at hge
        rcases Nat.eq_or_lt_of_le hge with heq | hlt2
        · rw [heq] at h1
          have := hcont.1
          omega
        · have := sortedNonOverlapping_mono frames hs mid j hlt2 hj
          have := hcont.1
          omega
      · rw [if_neg h1]
        by_cases h2 : (frames.getD mid default).offset + 19 < offset
        · rw [if_pos h2]
          apply ih (mid + 1) hi1 (by omega) hle
          intro j hj hcont
          obtain ⟨hj1, hj2⟩ := hinv j hj hcont
          refine ⟨?_, hj2⟩
          by_contra hge
          push_neg at hge
          rcases Nat.eq_or_lt_of_le (Nat.le_of_lt_succ hge) with heq | hlt2
          · rw [heq] at hcont
            have := hcont.2
            omega
          · have := sortedNonOverlapping_mono frames hs j mid hlt2 hmidlen
            have := hcont.2
            omega
        · rw [if_neg h2]
          constructor
          · intro h
            injection h with h
            subst h
            exact ⟨hmidlen, by omega, by omega⟩
          · rintro ⟨hi, hcont⟩
            have heq : i = mid := by
              by_contra hne
              rcases Nat.lt_or_ge i mid with hlt2 | hge
              · have := sortedNonOverlapping_mono frames hs i mid hlt2 hmidlen
                have := hcont.2
                omega
              · have hgt : mid < i := by omega
                have := sortedNonOverlapping_mono frames hs mid i hgt hi
                have := hcont.1
                omega
            rw [heq]
    · rw [frameSearchGo, dif_neg hlt]
      constructor
      · intro h; cases h
      · rintro ⟨hi, hcont⟩
        have := hinv i hi hcont
        omega

/-- C8: for every frame list that is ascending by offset with
non-overlapping 20-byte spans, `frameAtOffset` returns exactly the index of
the frame whose span `[offset, offset+19]` contains the queried offset, and
`none` exactly when no frame's span contains it. -/
theorem c8_frameAtOffset_binary_search (frames : List ParsedFrame)
    (hs : sortedNonOverlapping frames) (offset : Nat) :
    (∀ i, frameAtOffset offset frames = some i ↔
      i < frames.length ∧ containsOffset (frames.getD i default) offset) ∧
    (frameAtOffset offset frames = none ↔
      ∀ j, j < frames.length → ¬ containsOffset (frames.getD j default) offset) := by
  have hiff := frameSearchGo_correct frames offset hs frames.length 0 frames.length
    (by omega) le_rfl (fun j hj _ => ⟨Nat.zero_le j, hj⟩)
  unfold frameAtOffset
  refine ⟨hiff, ?_⟩
  cases hres : frameSearchGo frames offset 0 frames.length with
  | none =>
    refine iff_of_true rfl ?_
    intro j hj hcont
    have := (hiff j).mpr ⟨hj, hcont⟩
    rw [hres] at this
    cases this
  | some k =>
    refine iff_of_false (by simp) ?_
    intro hall
    obtain ⟨hk, hcont⟩ := (hiff k).mp hres
    exact hall k hk hcont

theorem c8_frameAtOffset_binary_search_witness :
    frameAtOffset 45 (parseFrames ([0xa0, 0x7b, 0x42] ++ List.replicate 37 0 ++
      [0xa0, 0x7b, 0x42] ++ List.replicate 17 0) []) = some 1 ∧
    frameAtOffset 25 (parseFrames ([0xa0, 0x7b, 0x42] ++ List.replicate 37 0 ++
      [0xa0, 0x7b, 0x42] ++ List.replicate 17 0) []) = none :=
  ⟨((c8_frameAtOffset_binary_search _ (by decide) 45).1 1).mpr (by decide),
   (c8_frameAtOffset_binary_search (parseFrames ([0xa0, 0x7b, 0x42] ++ List.replicate 37 0 ++
      [0xa0, 0x7b, 0x42] ++ List.replicate 17 0) []) (by decide) 25).2.mpr (by decide)⟩

theorem allZerosUpTo100_getD (buf : List Nat) (pos k : Nat)
    (hz : allZerosUpTo100 buf pos = true) (hk : k < 100) (hlen : pos + k < buf.length) :
    buf.getD (pos + k) 0 = 0 := by
  unfold allZerosUpTo100 bytesAt at hz
  rw [List.all_eq_true] at hz
  have hkd : k < (buf.drop pos).length := by
    simp only [List.length_drop]
    omega
  have hkt : k < ((buf.drop pos).take 100).length := by
    simp only [List.length_take, List.length_drop]
    omega
  have he : ((buf.drop pos).take 100)[k] = buf.getD (pos + k) 0 := by
    rw [List.getElem_take, List.getElem_drop]
    exact (List.getD_eq_getElem buf 0 hlen).symm
  have hm := hz (((buf.drop pos).take 100)[k]) (List.getElem_mem hkt)
  rw [he] at hm
  simpa using hm

theorem readCompressedBlob_of_zeros (ir inf : List Nat → Option (List Nat))
    (fuel : Nat) (buf : List Nat) (pos : Nat)
    (hz : allZerosUpTo100 buf pos = true) (hgt : 100 < buf.length - pos) :
    readCompressedBlob ir inf fuel buf pos = none := by
  have h4 : ¬ (buf.length < pos + 4) := by omega
  have h0 := allZerosUpTo100_getD buf pos 0 hz (by omega) (by omega)
  have h1 := allZerosUpTo100_getD buf pos 1 hz (by omega) (by omega)
  have h2 := allZerosUpTo100_getD buf pos 2 hz (by omega) (by omega)
  have h3 := allZerosUpTo100_getD buf pos 3 hz (by omega) (by omega)
  rw [Nat.add_zero] at h0
  have hv : i32beAt buf pos = 0 := by
    unfold i32beAt
    rw [h0, h1, h2, h3]
    norm_num
  simp only [readCompressedBlob]
  rw [if_neg h4, hv]
  norm_num

theorem not_allZeros_of_up100_false (buf : List Nat) (pos : Nat)
    (hz : allZerosUpTo100 buf pos = false) :
    ¬ ((buf.drop pos).all (fun b => b == 0) = true) := by
  intro hall
  unfold allZerosUpTo100 bytesAt at hz
  rw [List.all_eq_true] at hall
  have htake : ((buf.drop pos).take 100).all (fun b => b == 0) = true := by
    rw [List.all_eq_true]
    intro x hx
    exact hall x (List.mem_of_mem_take hx)
  rw [htake] at hz
  cases hz

theorem allZerosUpTo100_eq_full (buf : List Nat) (pos : Nat)
    (hle : buf.length - pos ≤ 100) :
    allZerosUpTo100 buf pos = (buf.drop pos).all (fun b => b == 0) := by
  unfold allZerosUpTo100 bytesAt
  rw [List.take_of_length_le]
  simp only [List.length_drop]
  omega

theorem readCompressedBlob_of_fail (ir inf : List Nat → Option (List Nat))
    (h1 : ∀ s, ir s = none) (h2 : ∀ s, inf s = none)
    (fuel : Nat) (buf : List Nat) (pos : Nat) :
    readCompressedBlob ir inf fuel buf pos = none := by
  simp [readCompressedBlob, h1, h2]

theorem unpack_unfold (ir inf : List Nat → Option (List Nat)) (buf : List Nat) :
    unpack ir inf buf = .mk buf.length (bondHeader buf).1 (bondStructResult buf).1
      (bondStructResult buf).2.1 (bondStructEnd buf).blobs
      (if (bondStructEnd buf).pos - (bondHeader buf).2 < (bondHeader buf).1 ∧
          (bondStructEnd buf).pos < buf.length then
        if allZerosUpTo100 buf (bondStructEnd buf).pos then none
        else readCompressedBlob ir inf buf.length buf (bondStructEnd buf).pos
      else none) := by
  simp only [unpack, unpackGo]

/-- C4: `unpack` attaches a nested compressed document exactly when the
declared outer length was not fully consumed, bytes remain, the remainder is
not all zero, and the compressed-blob read (including a decompression
attempt) succeeds; the outer document's length, content and blobs are always
those of the main struct decode, so when both decompression oracles fail the
outer document is returned intact with no nested document, and a fully
consumed outer length yields no nested document. -/
theorem c4_unpack_compressed_trailer (ir inf : List Nat → Option (List Nat))
    (buf : List Nat) :
    ((unpack ir inf buf).compressedData.isSome = true ↔
      ((bondStructEnd buf).pos - (bondHeader buf).2 < (bondHeader buf).1 ∧
       (bondStructEnd buf).pos < buf.length ∧
       ¬ ((buf.drop (bondStructEnd buf).pos).all (fun b => b == 0) = true) ∧
       (readCompressedBlob ir inf buf.length buf (bondStructEnd buf).pos).isSome = true)) ∧
    ((bondHeader buf).1 ≤ (bondStructEnd buf).pos - (bondHeader buf).2 →
      (unpack ir inf buf).compressedData = none) ∧
    ((unpack ir inf buf).outerLength = (bondHeader buf).1 ∧
     (unpack ir inf buf).content = ((bondStructResult buf).1, (bondStructResult buf).2.1) ∧
     (unpack ir inf buf).blobs = (bondStructEnd buf).blobs) ∧
    ((∀ s, ir s = none) → (∀ s, inf s = none) →
      (unpack ir inf buf).compressedData = none) := by
  rw [unpack_unfold ir inf buf]
  simp only [BondDocument.compressedData, BondDocument.outerLength, BondDocument.content,
    BondDocument.blobs]
  refine ⟨?_, ?_, ⟨by trivial, by trivial, by trivial⟩, ?_⟩
  · by_cases hc : (bondStructEnd buf).pos - (bondHeader buf).2 < (bondHeader buf).1 ∧
        (bondStructEnd buf).pos < buf.length
    · rw [if_pos hc]
      by_cases hz : allZerosUpTo100 buf (bondStructEnd buf).pos = true
      · rw [if_pos hz]
        refine iff_of_false (by simp) ?_
        rintro ⟨h1, h2, h3, h4⟩
        by_cases hr : buf.length - (bondStructEnd buf).pos ≤ 100
        · rw [allZerosUpTo100_eq_full buf (bondStructEnd buf).pos hr] at hz
          exact h3 hz
        · rw [readCompressedBlob_of_zeros ir inf buf.length buf (bondStructEnd buf).pos hz
            (by omega)] at h4
          simp at h4
      · rw [if_neg hz]
        have hzf : allZerosUpTo100 buf (bondStructEnd buf).pos = false :=
          Bool.eq_false_iff.mpr hz
        exact ⟨fun h => ⟨hc.1, hc.2, not_allZeros_of_up100_false buf _ hzf, h⟩,
               fun h => h.2.2.2⟩
    · rw [if_neg hc]
      refine iff_of_false (by simp) ?_
      rintro ⟨h1, h2, _, _⟩
      exact hc ⟨h1, h2⟩
  · intro hle
    rw [if_neg]
    rintro ⟨h1, _⟩
    omega
  · intro h1 h2
    split_ifs with hc hz
    · rfl
    · exact readCompressedBlob_of_fail ir inf h1 h2 buf.length buf (bondStructEnd buf).pos
    · rfl

theorem c4_unpack_compressed_trailer_witness :
    (unpack (fun _ => none) (fun _ => none) [0]).compressedData = none ∧
    (unpack (fun _ => none) (fun _ => none) [0]).outerLength = (bondHeader [0]).1 :=
  ⟨(c4_unpack_compressed_trailer (fun _ => none) (fun _ => none) [0]).2.1 (by decide),
   (c4_unpack_compressed_trailer (fun _ => none) (fun _ => none) [0]).2.2.1.1⟩

/-- C5 counterexample: a byte list with count 0 (header byte `0x23`: inline
count bits 1, element type uint8) has a payload all of whose bytes are
vacuously printable, yet `readList` stores it as a blob reference instead of
exposing it as decoded text — the claimed "exactly when every payload byte
is printable" condition omits the `0 < count < 1000` bounds. -/
theorem c5_readList_emptyByte_counterexample :
    (listHeader [0x23] 0).1 = 3 ∧
    (bytesAt [0x23] (listHeader [0x23] 0).2.2 (listHeader [0x23] 0).2.1).all isTextByte = true ∧
    listData (readList [0x23] 1 false ⟨0, []⟩).1 = none ∧
    listBlobRef (readList [0x23] 1 false ⟨0, []⟩).1 = some 0 := by
  decide

/-- C5 (amended): for a list/set whose element type is a single-byte integer
(uint8 = 3 or int8 = 14), the payload is exposed as decoded text (NULs
stripped) exactly when the count is positive, smaller than 1000 and every
payload byte is printable ASCII, whitespace or NUL; otherwise the payload is
appended once to the blob side table and the value carries only the
reference index; the value never carries an item sequence, and never both
text and a blob reference. -/
theorem c5_readList_bytePayload (buf : List Nat) (fuel : Nat) (isSet : Bool)
    (st : BondState)
    (he : (listHeader buf st.pos).1 = 3 ∨ (listHeader buf st.pos).1 = 14) :
    ((listData (readList buf (fuel + 1) isSet st).1).isSome = true ↔
      (0 < (listHeader buf st.pos).2.1 ∧ (listHeader buf st.pos).2.1 < 1000 ∧
       (bytesAt buf (listHeader buf st.pos).2.2 (listHeader buf st.pos).2.1).all
         isTextByte = true)) ∧
    listItems (readList buf (fuel + 1) isSet st).1 = none ∧
    ((listData (readList buf (fuel + 1) isSet st).1).isSome = true →
      listData (readList buf (fuel + 1) isSet st).1 =
        some ((bytesAt buf (listHeader buf st.pos).2.2 (listHeader buf st.pos).2.1).filter
          (fun b => b != 0)) ∧
      listBlobRef (readList buf (fuel + 1) isSet st).1 = none ∧
      (readList buf (fuel + 1) isSet st).2.blobs = st.blobs) ∧
    ((listData (readList buf (fuel + 1) isSet st).1).isSome = false →
      listBlobRef (readList buf (fuel + 1) isSet st).1 = some st.blobs.length ∧
      (readList buf (fuel + 1) isSet st).2.blobs = st.blobs ++
        [⟨st.blobs.length, (listHeader buf st.pos).2.1,
          bytesAt buf (listHeader buf st.pos).2.2 (listHeader buf st.pos).2.1⟩]) := by
  simp only [readList]
  rw [if_pos he]
  by_cases ht : (decide (0 < (listHeader buf st.pos).2.1) &&
      decide ((listHeader buf st.pos).2.1 < 1000) &&
      (bytesAt buf (listHeader buf st.pos).2.2 (listHeader buf st.pos).2.1).all isTextByte) = true
  · rw [if_pos ht]
    simp only [Bool.and_eq_true, decide_eq_true_eq] at ht
    refine ⟨?_, rfl, ?_, ?_⟩
    · simp only [listData, Option.isSome_some, true_iff]
      exact ⟨ht.1.1, ht.1.2, ht.2⟩
    · intro _
      exact ⟨rfl, rfl, rfl⟩
    · intro hf
      simp only [listData, Option.isSome_some, Bool.true_eq_false] at hf
  · rw [if_neg ht]
    refine ⟨?_, rfl, ?_, ?_⟩
    · simp only [listData, Option.isSome_none, Bool.false_eq_true, false_iff]
      rintro ⟨h1, h2, h3⟩
      exact ht (by simp [h1, h2, h3])
    · intro hs
      simp only [listData, Option.isSome_none, Bool.false_eq_true] at hs
    · intro _
      exact ⟨rfl, rfl⟩

theorem c5_readList_bytePayload_witness :
    ((listData (readList [0x63, 72, 105] 1 false ⟨0, []⟩).1).isSome = true ↔
      (0 < (listHeader [0x63, 72, 105] 0).2.1 ∧ (listHeader [0x63, 72, 105] 0).2.1 < 1000 ∧
       (bytesAt [0x63, 72, 105] (listHeader [0x63, 72, 105] 0).2.2
         (listHeader [0x63, 72, 105] 0).2.1).all isTextByte = true)) ∧
    listItems (readList [0x63, 72, 105] 1 false ⟨0, []⟩).1 = none ∧
    ((listData (readList [0x63, 72, 105] 1 false ⟨0, []⟩).1).isSome = true →
      listData (readList [0x63, 72, 105] 1 false ⟨0, []⟩).1 =
        some ((bytesAt [0x63, 72, 105] (listHeader [0x63, 72, 105] 0).2.2
          (listHeader [0x63, 72, 105] 0).2.1).filter (fun b => b != 0)) ∧
      listBlobRef (readList [0x63, 72, 105] 1 false ⟨0, []⟩).1 = none ∧
      (readList [0x63, 72, 105] 1 false ⟨0, []⟩).2.blobs = BondState.blobs ⟨0, []⟩) ∧
    ((listData (readList [0x63, 72, 105] 1 false ⟨0, []⟩).1).isSome = false →
      listBlobRef (readList [0x63, 72, 105] 1 false ⟨0, []⟩).1 =
        some (BondState.blobs ⟨0, []⟩).length ∧
      (readList [0x63, 72, 105] 1 false ⟨0, []⟩).2.blobs = BondState.blobs ⟨0, []⟩ ++
        [⟨(BondState.blobs ⟨0, []⟩).length, (listHeader [0x63, 72, 105] 0).2.1,
          bytesAt [0x63, 72, 105] (listHeader [0x63, 72, 105] 0).2.2
            (listHeader [0x63, 72, 105] 0).2.1⟩]) :=
  c5_readList_bytePayload [0x63, 72, 105] 0 false ⟨0, []⟩ (Or.inl (by decide))

end Filmshell
